import Mathlib

/-!
A shallow embedding of the ACE adaptive-memory engine of `src/ace.py`
(class `ACEManager`): guardrail sanitization, task-signature extraction,
tip identity, curation, merging with decay and eviction, similarity-scored
retrieval, prompt-overlay assembly and outcome feedback.

Modelling conventions, fixed once for the whole file:
* Python strings are Lean `String`s (sequences of code points, so Python
  slicing `s[:n]` is `List.take n` on `String.data`).  `str.lower` is
  modelled for the ASCII range (`pyLowerChar`), which covers every string
  the engine manipulates.
* Python floats are modelled as `ℚ`; `round(x, 2)` is `round2`
  (round-half-up to a multiple of 1/100; none of the verified facts
  depends on the tie-breaking direction of Python's float rounding).
* `datetime` values are modelled by their epoch second (`Int`); a
  timestamp field of a stored tip is `Option (Option Int)`:
  `none` = key absent, `some none` = present but unparseable,
  `some (some t)` = parses to instant `t`.  `timedelta.days` is floor
  division of the second difference by 86400 (`Int.fdiv`).
* `dict` objects keyed by tip identity are association lists with
  Python-dict semantics (`dictSet`): insertion order is preserved and
  overwriting a key keeps its position.
* `list.sort(key=…, reverse=True)` is a stable descending insertion
  sort (`sortDesc`); Python's sort is stable, so the results agree.
* `hashlib.sha256(…).hexdigest()` is a full SHA-256 implementation over
  the UTF-8 bytes of the input (`sha256hex`).
* `re.sub` for the three configured redaction patterns runs a small
  backtracking matcher (`matchFrom`) over patterns given as sequences of
  character-class items with greedy counted repetition, which is exactly
  the shape of the three default patterns.
-/

/-- Python `s[:n]` on a string (code-point slicing). -/
def pyTake (n : Nat) (s : String) : String := ⟨s.data.take n⟩

/-- Characters stripped by Python `str.strip()` (ASCII whitespace). -/
def pySpaceChar (c : Char) : Bool :=
  c.toNat = 32 || c.toNat = 9 || c.toNat = 10 || c.toNat = 13 || c.toNat = 11 || c.toNat = 12

/-- Python `str.strip()`: drop ASCII whitespace at both ends. -/
def pyStrip (s : String) : String :=
  ⟨((s.data.dropWhile pySpaceChar).reverse.dropWhile pySpaceChar).reverse⟩

/-- Python `sep.join(parts)`. -/
def pyJoin (sep : String) : List String → String
  | [] => ""
  | [x] => x
  | x :: y :: xs => x ++ sep ++ pyJoin sep (y :: xs)

/-- Python `str.lower` on one character, modelled for ASCII. -/
def pyLowerChar (c : Char) : Char :=
  if 65 ≤ c.toNat ∧ c.toNat ≤ 90 then Char.ofNat (c.toNat + 32) else c

/-- Python `str.lower`, modelled for ASCII. -/
def pyLower (s : String) : String := ⟨s.data.map pyLowerChar⟩

/-- Is `t` a contiguous substring of `s`?  (Python `t in s`.) -/
def isSubstrOf (t : List Char) : List Char → Bool
  | [] => t.isEmpty
  | c :: cs => t.isPrefixOf (c :: cs) || isSubstrOf t cs

/-- One step of Python `str.replace` done with explicit fuel (the fuel is
always instantiated with the length of the subject, which is enough since
every step consumes at least one character when the needle is nonempty). -/
def pyReplaceAux (tm rep : List Char) : Nat → List Char → List Char
  | 0, s => s
  | _, [] => []
  | fuel + 1, c :: cs =>
    if tm ≠ [] ∧ tm.isPrefixOf (c :: cs) then
      rep ++ pyReplaceAux tm rep fuel (List.drop tm.length (c :: cs))
    else
      c :: pyReplaceAux tm rep fuel cs

/-- Python `s.replace(tm, rep)` for a nonempty needle `tm` (the engine's
denylist terms are all nonempty): replace non-overlapping occurrences left
to right, case-sensitively. -/
def pyReplace (s tm rep : String) : String :=
  ⟨pyReplaceAux tm.data rep.data s.data.length s.data⟩

/-- `re.findall("[…]+", s)`-style maximal-run tokenizer: split `s` into the
maximal runs of characters satisfying `p`, in order.  `acc` is the current
run, reversed. -/
def splitRuns (p : Char → Bool) : List Char → List Char → List String
  | acc, [] => if acc.isEmpty then [] else [⟨acc.reverse⟩]
  | acc, c :: cs =>
    if p c then splitRuns p (c :: acc) cs
    else if acc.isEmpty then splitRuns p [] cs
    else ⟨acc.reverse⟩ :: splitRuns p [] cs

/-- Python `l[-n:]`. -/
def pyLastN (n : Nat) (l : List α) : List α := l.drop (l.length - n)

/-- Stable insert for a descending sort keyed by `key` (a later element is
placed after earlier elements with an equal key, as Python's stable sort
does). -/
def insertDesc (key : α → ℚ) (x : α) : List α → List α
  | [] => [x]
  | y :: ys => if key y < key x then x :: y :: ys else y :: insertDesc key x ys

/-- Python `list.sort(key=key, reverse=True)`: stable descending sort. -/
def sortDesc (key : α → ℚ) (l : List α) : List α :=
  l.foldl (fun acc x => insertDesc key x acc) []

/-- Floor of a rational (same value as `Int.floor`, but stated on the raw
representation so that it evaluates by kernel reduction). -/
def rfloor (q : ℚ) : ℤ := q.num / (q.den : ℤ)

/-- Python `round(x, 2)` on the rational model: round to a multiple of
1/100 (half up; the engine's behaviour never hinges on ties). -/
def round2 (q : ℚ) : ℚ := ((rfloor (q * 100 + 1/2) : ℤ) : ℚ) / 100

theorem rfloor_eq_floor (q : ℚ) : rfloor q = ⌊q⌋ := by
  rw [rfloor, Rat.floor_def]

theorem round2_mono {a b : ℚ} (h : a ≤ b) : round2 a ≤ round2 b := by
  rw [round2, round2, rfloor_eq_floor, rfloor_eq_floor]
  have : (⌊a * 100 + 1/2⌋ : ℤ) ≤ ⌊b * 100 + 1/2⌋ := by
    apply Int.floor_le_floor
    nlinarith
  gcongr

theorem round2_le_of_le {a b : ℚ} (hb : round2 b = b) (h : a ≤ b) : round2 a ≤ b := by
  calc round2 a ≤ round2 b := round2_mono h
  _ = b := hb

set_option maxRecDepth 4000 in
theorem round2_tenth : round2 (1/10) = 1/10 := by with_unfolding_all decide

set_option maxRecDepth 4000 in
theorem round2_one : round2 1 = 1 := by with_unfolding_all decide

/-!  A pattern item matches between `lo` and `hi` (`none` = unbounded)
repetitions of a character class, greedily with backtracking — the exact
semantics Python's `re` gives the three default redaction patterns, each of
which is a plain concatenation of counted character classes. -/

structure RItem where
  pred : Char → Bool
  lo : Nat
  hi : Option Nat

/-- Length of the maximal prefix run of characters satisfying `p`. -/
def maxRun (p : Char → Bool) : List Char → Nat
  | [] => 0
  | c :: cs => if p c then maxRun p cs + 1 else 0

/-- Try repetition counts `k, k-1, …, lo` for the current item (greedy
longest-first, as Python's backtracking does); `cont` matches the rest of
the pattern and returns the length it consumed. -/
def tryCounts (cont : List Char → Option Nat) (s : List Char) (lo : Nat) : Nat → Option Nat
  | 0 =>
    if lo = 0 then cont s else none
  | k + 1 =>
    if k + 1 < lo then none
    else
      match cont (s.drop (k + 1)) with
      | some n => some (k + 1 + n)
      | none => tryCounts cont s lo k

/-- Match a pattern at the start of `s`; `some n` means the pattern matched
exactly the first `n` characters (with Python's greedy/backtracking choice
of `n`). -/
def matchFrom : List RItem → List Char → Option Nat
  | [], _ => some 0
  | it :: rest, s =>
    let m := maxRun it.pred s
    let top := match it.hi with | none => m | some b => min b m
    tryCounts (matchFrom rest) s it.lo top

/-- `re.sub(pattern, rep, s)`: scan left to right, replacing each leftmost
match and resuming after it.  Fueled by the length of `s` (every step
consumes at least one character; the three redaction patterns cannot match
the empty string, so the zero-length-match case never fires). -/
def reSubAux (pat : List RItem) (rep : List Char) : Nat → List Char → List Char
  | 0, s => s
  | _, [] => []
  | fuel + 1, c :: cs =>
    match matchFrom pat (c :: cs) with
    | some (n + 1) => rep ++ reSubAux pat rep fuel (List.drop n cs)
    | _ => c :: reSubAux pat rep fuel cs

/-- `re.sub(pattern, rep, s)` on strings. -/
def reSub (pat : List RItem) (rep s : String) : String :=
  ⟨reSubAux pat rep.data s.data.length s.data⟩

/-- A single mandatory literal character (case-sensitive). -/
def litItem (c : Char) : RItem := ⟨fun d => d = c, 1, some 1⟩

/-- A single mandatory literal character under the `(?i)` flag. -/
def litItemCI (c : Char) : RItem := ⟨fun d => pyLowerChar d = c, 1, some 1⟩

/-- The character class `[A-Za-z0-9]`. -/
def isAsciiAlnum (c : Char) : Bool :=
  (97 ≤ c.toNat && c.toNat ≤ 122) || (65 ≤ c.toNat && c.toNat ≤ 90) ||
    (48 ≤ c.toNat && c.toNat ≤ 57)

/-- The redaction pattern `sk-[A-Za-z0-9]{20,}` of `DEFAULT_GUARDRAILS`. -/
def pat_sk : List RItem :=
  [litItem 's', litItem 'k', litItem '-', ⟨isAsciiAlnum, 20, none⟩]

/-- The redaction pattern `(?i)api[_-]?key\s*[:=]\s*\S+`. -/
def pat_apikey : List RItem :=
  [litItemCI 'a', litItemCI 'p', litItemCI 'i',
   ⟨fun d => d = '_' || d = '-', 0, some 1⟩,
   litItemCI 'k', litItemCI 'e', litItemCI 'y',
   ⟨pySpaceChar, 0, none⟩,
   ⟨fun d => d = ':' || d = '=', 1, some 1⟩,
   ⟨pySpaceChar, 0, none⟩,
   ⟨fun d => !pySpaceChar d, 1, none⟩]

/-- The redaction pattern `(?i)bearer\s+[A-Za-z0-9\-\._]+`. -/
def pat_bearer : List RItem :=
  [litItemCI 'b', litItemCI 'e', litItemCI 'a', litItemCI 'r', litItemCI 'e', litItemCI 'r',
   ⟨pySpaceChar, 1, none⟩,
   ⟨fun d => isAsciiAlnum d || d = '-' || d = '.' || d = '_', 1, none⟩]

/-!  SHA-256 (FIPS 180-4) over a byte list, used by `_tip_id` through
`hashlib.sha256(f"{domain}::{tip}".encode()).hexdigest()[:12]`.  All words
are `Nat`s reduced modulo 2^32 where the algorithm wraps. -/

/-- UTF-8 encoding of one code point (Python `str.encode()`). -/
def utf8Char (c : Char) : List Nat :=
  let u := c.toNat
  if u < 128 then [u]
  else if u < 2048 then [192 ||| (u >>> 6), 128 ||| (u &&& 63)]
  else if u < 65536 then
    [224 ||| (u >>> 12), 128 ||| ((u >>> 6) &&& 63), 128 ||| (u &&& 63)]
  else
    [240 ||| (u >>> 18), 128 ||| ((u >>> 12) &&& 63), 128 ||| ((u >>> 6) &&& 63),
     128 ||| (u &&& 63)]

/-- UTF-8 bytes of a string. -/
def strUtf8 (s : String) : List Nat := s.data.foldr (fun c acc => utf8Char c ++ acc) []

/-- Right rotation of a 32-bit word. -/
def rotr32 (k n : Nat) : Nat := ((n >>> k) ||| (n <<< (32 - k))) % 4294967296

def shaCh (e f g : Nat) : Nat := (e &&& f) ^^^ ((e ^^^ 4294967295) &&& g)

def shaMaj (a b c : Nat) : Nat := (a &&& b) ^^^ (a &&& c) ^^^ (b &&& c)

def shaBSig0 (x : Nat) : Nat := rotr32 2 x ^^^ rotr32 13 x ^^^ rotr32 22 x

def shaBSig1 (x : Nat) : Nat := rotr32 6 x ^^^ rotr32 11 x ^^^ rotr32 25 x

def shaSSig0 (x : Nat) : Nat := rotr32 7 x ^^^ rotr32 18 x ^^^ (x >>> 3)

def shaSSig1 (x : Nat) : Nat := rotr32 17 x ^^^ rotr32 19 x ^^^ (x >>> 10)

def shaK : List Nat := [
  1116352408, 1899447441, 3049323471, 3921009573, 961987163, 1508970993, 2453635748, 2870763221,
  3624381080, 310598401, 607225278, 1426881987, 1925078388, 2162078206, 2614888103, 3248222580,
  3835390401, 4022224774, 264347078, 604807628, 770255983, 1249150122, 1555081692, 1996064986,
  2554220882, 2821834349, 2952996808, 3210313671, 3336571891, 3584528711, 113926993, 338241895,
  666307205, 773529912, 1294757372, 1396182291, 1695183700, 1986661051, 2177026350, 2456956037,
  2730485921, 2820302411, 3259730800, 3345764771, 3516065817, 3600352804, 4094571909, 275423344,
  430227734, 506948616, 659060556, 883997877, 958139571, 1322822218, 1537002063, 1747873779,
  1955562222, 2024104815, 2227730452, 2361852424, 2428436474, 2756734187, 3204031479, 3329325298]

structure ShaState where
  a : Nat
  b : Nat
  c : Nat
  d : Nat
  e : Nat
  f : Nat
  g : Nat
  h2 : Nat

def shaInit : ShaState :=
  ⟨1779033703, 3144134277, 1013904242, 2773480762, 1359893119, 2600822924, 528734635, 1541459225⟩

/-- One round of the SHA-256 compression loop. -/
def shaRound (s : ShaState) (kw : Nat × Nat) : ShaState :=
  let t1 := (s.h2 + shaBSig1 s.e + shaCh s.e s.f s.g + kw.1 + kw.2) % 4294967296
  let t2 := (shaBSig0 s.a + shaMaj s.a s.b s.c) % 4294967296
  ⟨(t1 + t2) % 4294967296, s.a, s.b, s.c, (s.d + t1) % 4294967296, s.e, s.f, s.g⟩

/-- Message-schedule extension: `w` is the schedule so far, newest first. -/
def shaExt : Nat → List Nat → List Nat
  | 0, w => w
  | k + 1, w =>
    shaExt k
      (((shaSSig1 (w.getD 1 0) + w.getD 6 0 + shaSSig0 (w.getD 14 0) + w.getD 15 0)
        % 4294967296) :: w)

/-- Split a list into chunks of `n` elements (the last may be shorter);
fueled by the list length. -/
def chunksAux (n : Nat) : Nat → List α → List (List α)
  | 0, _ => []
  | _, [] => []
  | fuel + 1, l => l.take n :: chunksAux n fuel (l.drop n)

def chunksOf (n : Nat) (l : List α) : List (List α) := chunksAux n l.length l

/-- Big-endian word from a byte chunk. -/
def wordBE (bs : List Nat) : Nat := bs.foldl (fun acc b => acc * 256 + b) 0

/-- Compress one 512-bit block (given as 16 big-endian words) into the
running state. -/
def shaCompress (hs : ShaState) (block : List Nat) : ShaState :=
  let w := (shaExt 48 block.reverse).reverse
  let s := (shaK.zip w).foldl shaRound hs
  ⟨(hs.a + s.a) % 4294967296, (hs.b + s.b) % 4294967296, (hs.c + s.c) % 4294967296,
   (hs.d + s.d) % 4294967296, (hs.e + s.e) % 4294967296, (hs.f + s.f) % 4294967296,
   (hs.g + s.g) % 4294967296, (hs.h2 + s.h2) % 4294967296⟩

/-- SHA-256 padding: append 0x80, zero-fill to 56 mod 64, then the 8-byte
big-endian bit length. -/
def shaPad (msg : List Nat) : List Nat :=
  let L := msg.length
  let z := (120 - ((L + 1) % 64)) % 64
  let bits := L * 8
  msg ++ [128] ++ List.replicate z 0 ++
    [bits / 72057594037927936 % 256, bits / 281474976710656 % 256,
     bits / 1099511627776 % 256, bits / 4294967296 % 256,
     bits / 16777216 % 256, bits / 65536 % 256, bits / 256 % 256, bits % 256]

/-- One hex digit. -/
def hexDigit (n : Nat) : Char :=
  if n < 10 then Char.ofNat (48 + n) else Char.ofNat (87 + n)

/-- Eight hex digits of a 32-bit word, big-endian. -/
def word32hex (w : Nat) : List Char :=
  [hexDigit (w / 268435456 % 16), hexDigit (w / 16777216 % 16),
   hexDigit (w / 1048576 % 16), hexDigit (w / 65536 % 16),
   hexDigit (w / 4096 % 16), hexDigit (w / 256 % 16),
   hexDigit (w / 16 % 16), hexDigit (w % 16)]

/-- `hashlib.sha256(bytes).hexdigest()` as a character list. -/
def sha256hex (msg : List Nat) : List Char :=
  let blocks := (chunksOf 64 (shaPad msg)).map (fun b => (chunksOf 4 b).map wordBE)
  let s := blocks.foldl shaCompress shaInit
  word32hex s.a ++ word32hex s.b ++ word32hex s.c ++ word32hex s.d ++
    word32hex s.e ++ word32hex s.f ++ word32hex s.g ++ word32hex s.h2

/-!  Data model (§ DEFAULT_GUARDRAILS and the tip dictionaries built by
`_tip_obj` / `_migrate_playbook`).  Tip fields are total: the engine
backfills every missing key with a default before use, so a structure with
total fields models the post-`setdefault` dictionaries. -/

structure Tip where
  id : String
  tip : String
  confidence : ℚ
  task_signature : List String
  task : String
  created_at : Option (Option Int)
  last_used : Option (Option Int)
  domain : String
  helpful_count : Nat
  harmful_count : Nat
deriving DecidableEq, Repr

structure Guardrails where
  notes : List String
  never_store_terms : List String
  redact_patterns : List (List RItem)

structure Playbook where
  active_tips : List Tip
  preferences : List String
deriving DecidableEq, Repr

/-- The guardrails document `DEFAULT_GUARDRAILS` of `ace.py`. -/
def default_guardrails : Guardrails :=
  { notes :=
      ["Do not store secrets, tokens, session data, emails, or URLs with query parameters.",
       "Summaries should focus on behaviors and steps, not raw scraped content.",
       "User-supplied preferences are allowed and should be preserved."],
    never_store_terms := ["password", "token", "cookie", "session", "secret", "api_key"],
    redact_patterns := [pat_sk, pat_apikey, pat_bearer] }

/-- `_tip_id`: `sha256(f"{domain}::{tip}").hexdigest()[:12]`. -/
def tip_id (tip domain : String) : String :=
  ⟨(sha256hex (strUtf8 (domain ++ "::" ++ tip))).take 12⟩

/-- The identity under which the engine addresses a stored tip dictionary:
`t.get("id") or self._tip_id(t.get("tip", ""), t.get("domain", …))`.
A present nonempty `id` wins; an empty one (Python-falsy) recomputes the
hash.  (The `domain` fallback default differs between call sites but is
irrelevant here because the field is total.) -/
def idOf (t : Tip) : String := if t.id = "" then tip_id t.tip t.domain else t.id

/-- `_sanitize_text` (ace.py lines 78–87): regex redaction passes in
pattern order, then the denylist loop (case-insensitive containment test,
case-sensitive replacement), then hard truncation to 2000 characters. -/
def sanitize_text (g : Guardrails) (text : String) : String :=
  if text = "" then ""
  else
    let cleaned := g.redact_patterns.foldl (fun acc p => reSub p "[REDACTED]" acc) text
    let cleaned := g.never_store_terms.foldl
      (fun acc term =>
        if isSubstrOf (pyLower term).data (pyLower acc).data then
          pyReplace acc term "[REDACTED]"
        else acc)
      cleaned
    pyTake 2000 cleaned

/-- The stop-word set of `_task_signature`. -/
def stop_words : List String :=
  ["the", "and", "or", "to", "for", "of", "a", "an", "in", "on", "at", "with", "by"]

/-- `_task_signature`: `re.findall(r"[a-zA-Z0-9]+", task.lower())`, drop
stop words, keep the first 12 tokens.  (No deduplication happens.) -/
def task_signature (task : String) : List String :=
  let words := splitRuns isAsciiAlnum [] (pyLower task).data
  (words.filter (fun w => w ≠ "" ∧ ¬ stop_words.contains w)).take 12

/-- `_similarity`: Jaccard index of the two token sets (0 when either set
is empty).  `List.dedup` plays the role of `set()`. -/
def similarity (sig_a sig_b : List String) : ℚ :=
  let sa := sig_a.dedup
  let sb := sig_b.dedup
  if sa.isEmpty || sb.isEmpty then 0
  else
    ((sa.filter (fun x => sb.contains x)).length : ℚ) /
      ((sa.length + (sb.filter (fun x => ¬ sa.contains x)).length : Nat) : ℚ)

/-- `_tip_obj`: a fresh structured tip. -/
def tip_obj (tip : String) (signature : List String) (task : String) (confidence : ℚ)
    (domain : String) (now : Int) : Tip :=
  { id := tip_id tip domain,
    tip := tip,
    confidence := round2 confidence,
    task_signature := signature,
    task := task,
    created_at := some (some now),
    last_used := some (some now),
    domain := domain,
    helpful_count := 0,
    harmful_count := 0 }

/-- A sanitized action record as `_curate_entry` sees it: either a dict
(with optional `tool` / `result_type` / `error_category` keys) or the
stringification of something else. -/
inductive ActRec where
  | record (tool : Option String) (result_type : Option String) (error_category : Option String)
  | other (s : String)
deriving DecidableEq, Repr

/-- The sanitized run entry fields that `_curate_entry` reads. -/
structure RunEntry where
  task : String
  outcome : String
  errors : List String
  actions : List ActRec
  signature : List String
deriving DecidableEq, Repr

/-- `summarize_action` (local function inside `_curate_entry`). -/
def summarize_action : ActRec → String
  | .record tool res err =>
    tool.getD "tool" ++ " [" ++ res.getD "ok" ++ "/" ++ err.getD "none" ++ "]"
  | .other s => pyTake 80 s

/-- The `tips` list built by the three independent rules of
`_curate_entry` (outcome tip, one tip per error, action-summary tip). -/
def curate_candidates (now : Int) (entry : RunEntry) (domain : String) : List Tip :=
  let task := pyStrip entry.task
  let outcome := pyStrip entry.outcome
  (if outcome ≠ "" then
    [tip_obj
      ("When tackling '" ++ task ++ "', keep the last observed outcome in mind: " ++
        pyTake 280 outcome)
      entry.signature task (65/100) domain now]
   else []) ++
  entry.errors.map (fun err =>
    tip_obj ("Avoid repeating this failure for '" ++ task ++ "': " ++ pyTake 180 err)
      entry.signature task (7/10) domain now) ++
  (if entry.actions ≠ [] then
    [tip_obj
      ("Recent actions for '" ++ task ++ "': " ++
        pyTake 280 (pyJoin ", " ((pyLastN 3 entry.actions).map summarize_action)))
      entry.signature task (6/10) domain now]
   else [])

/-- `_curate_entry`: deterministic curation rules producing candidate
tips; when none of the rules fired, a single low-information fallback
tip is produced instead. -/
def curate_entry (now : Int) (entry : RunEntry) (domain : String) : List Tip :=
  if (curate_candidates now entry domain).isEmpty then
    [tip_obj ("Log kept for '" ++ pyStrip entry.task ++ "', no specific guidance yet.")
      entry.signature (pyStrip entry.task) (1/2) domain now]
  else curate_candidates now entry domain

/-!  The identity-keyed dictionary of `_update_active_tips`, with Python
dict semantics: setting an existing key replaces the value in place,
setting a fresh key appends. -/

def dictSet (d : List (String × Tip)) (k : String) (v : Tip) : List (String × Tip) :=
  if d.any (fun p => p.1 = k) then
    d.map (fun p => if p.1 = k then (k, v) else p)
  else d ++ [(k, v)]

/-- `index = {idOf t : t for t in existing}` (ace.py line 311). -/
def buildIndex (existing : List Tip) : List (String × Tip) :=
  existing.foldl (fun d t => dictSet d (idOf t) t) []

def lookupKey (d : List (String × Tip)) (k : String) : Option Tip :=
  (d.find? (fun p => p.1 = k)).map (fun p => p.2)

/-- The in-place update of an existing tip when a candidate with the same
identity arrives (ace.py lines 318–327): blended-and-rounded confidence,
signature refreshed unless the candidate's is empty (Python-falsy `or`),
task/domain/lastUsed refreshed, counters untouched, id untouched. -/
def updateExisting (now : Int) (e c : Tip) : Tip :=
  { e with
    confidence := round2 (min 1 (e.confidence * (7/10) + c.confidence * (1/2))),
    task_signature := if c.task_signature.isEmpty then e.task_signature else c.task_signature,
    task := c.task,
    last_used := some (some now),
    domain := c.domain }

/-- Processing of one candidate inside the `for tip_obj in new_tips` loop
of `_update_active_tips` (lines 313–329). -/
def mergeStep (now : Int) (d : List (String × Tip)) (c : Tip) : List (String × Tip) :=
  let tid := idOf c
  let c2 : Tip := { c with id := tid }
  match lookupKey d tid with
  | some e => dictSet d tid (updateExisting now e c2)
  | none => d ++ [(tid, c2)]

/-- The merge phase of `_update_active_tips` (lines 310–331): build the
identity index from the existing tips, fold the candidates through it, and
read the dictionary values back in insertion order. -/
def mergeTips (now : Int) (existing new_tips : List Tip) : List Tip :=
  (new_tips.foldl (mergeStep now) (buildIndex existing)).map (fun p => p.2)

/-- The timestamp `_apply_decay` measures from:
`tip.get("last_used", tip.get("created_at"))`, parsed; `now` when the
reference is absent or unparseable. -/
def effLast (now : Int) (t : Tip) : Int :=
  match (match t.last_used with | none => t.created_at | some v => some v) with
  | some (some d) => d
  | _ => now

/-- `_apply_decay` (lines 336–349): 2 % per whole elapsed day, factor
floored at 0.5, confidence floored at 0.1 and rounded to 2 decimals. -/
def apply_decay (now : Int) (tips : List Tip) : List Tip :=
  tips.map (fun tip =>
    let days_old : Int := Int.fdiv (now - effLast now tip) 86400
    let decay_factor : ℚ := max (1/2) (1 - (2/100) * (days_old : ℚ))
    { tip with confidence := round2 (max (1/10) (tip.confidence * decay_factor)) })

/-- `_prune_tips` (lines 351–354): drop confidence < 0.2, sort by
confidence descending (stable), keep the top 20. -/
def prune_tips (tips : List Tip) : List Tip :=
  ((sortDesc (fun t => t.confidence) (tips.filter (fun t => (1/5 : ℚ) ≤ t.confidence))).take 20)

/-- `_update_active_tips` (lines 309–334): merge, decay the whole set,
evict, store. -/
def update_active_tips (now : Int) (pb : Playbook) (new_tips : List Tip) : Playbook :=
  { pb with active_tips := prune_tips (apply_decay now (mergeTips now pb.active_tips new_tips)) }

/-- `_update_preferences` (lines 356–361). -/
def update_preferences (pb : Playbook) (new_prefs : List String) : Playbook :=
  { pb with
    preferences :=
      (new_prefs.foldl (fun acc pref =>
        if pref ≠ "" ∧ ¬ acc.contains pref then acc ++ [pref] else acc)
        pb.preferences).take 12 }

/-- The scoring loop of `_select_tips` (lines 367–381): index-tagged so
that the mutation of the selected dictionaries can be replayed on the
stored list exactly as Python's aliasing does.  Returns the chosen
`(score, index, tip)` triples, highest score first. -/
def select_core (pb : Playbook) (current_task domain : String) : List (ℚ × Nat × Tip) :=
  let signature := task_signature current_task
  let scored := pb.active_tips.enum.filterMap (fun it =>
    if it.2.domain = domain ∨ it.2.domain = "global" then
      let sim := if ¬ signature.isEmpty then similarity signature it.2.task_signature else 0
      some (sim * (6/10) + it.2.confidence * (4/10), it.1, it.2)
    else none)
  let sorted := sortDesc (fun x => x.1) scored
  let top := (sorted.filter (fun x => (1/5 : ℚ) ≤ x.1)).take 8
  if top.isEmpty then sorted.take 5 else top

/-- `_select_tips` (lines 363–387).  The returned tips are the very
dictionaries held in the store (Python aliasing), so they carry the
`last_used` refresh *and* the subsequent decay of that refreshed state;
the store is then decayed, pruned and persisted. -/
def select_tips (now : Int) (pb : Playbook) (current_task domain : String) :
    List Tip × Playbook :=
  if pb.active_tips.isEmpty then ([], pb)
  else
    let sel := select_core pb current_task domain
    let selIdx := sel.map (fun x => x.2.1)
    let refreshed := pb.active_tips.enum.map (fun it =>
      if selIdx.contains it.1 then { it.2 with last_used := some (some now) } else it.2)
    let decayed := apply_decay now refreshed
    let returned := sel.filterMap (fun x => decayed.get? x.2.1)
    (returned, { pb with active_tips := prune_tips decayed })

/-- `prompt_overlay` (lines 151–167): tip section, first-5 preferences
section, guardrail-notes section, joined with newlines; alongside the
identities of the selected tips. -/
def prompt_overlay (now : Int) (g : Guardrails) (pb : Playbook)
    (current_task domain : String) : (String × List String) × Playbook :=
  let tipsSt := select_tips now pb current_task domain
  let tips := tipsSt.1
  let preferences := pb.preferences
  let lines :=
    (if ¬ tips.isEmpty then
      "ACE curated tips (recent, matched):" :: tips.map (fun t => "- " ++ t.tip)
     else []) ++
    (if ¬ preferences.isEmpty then
      "User preferences to respect:" :: (preferences.take 5).map (fun p => "- " ++ p)
     else []) ++
    (if ¬ g.notes.isEmpty then
      "Guardrails:" :: g.notes.map (fun note => "- " ++ note)
     else [])
  ((pyJoin "\n" lines, tips.map idOf), tipsSt.2)

/-- The loop body of `_update_tip_feedback` (ace.py lines 393–405)
applied to one stored tip: success bumps `helpful_count` and caps
confidence at 1.0, failed/blocked bumps `harmful_count` and floors
confidence at 0.1, any other status leaves a matched tip unchanged;
unmatched tips are untouched. -/
def feedback_one (used_tip_ids : List String) (goal_status : String) (tip : Tip) : Tip :=
  if used_tip_ids.contains (idOf tip) then
    if goal_status = "success" then
      { tip with
        helpful_count := tip.helpful_count + 1,
        confidence := min 1 (tip.confidence + 1/20) }
    else if goal_status = "failed" ∨ goal_status = "blocked" then
      { tip with
        harmful_count := tip.harmful_count + 1,
        confidence := max (1/10) (tip.confidence - 1/20) }
    else tip
  else tip

/-- `_update_tip_feedback` (lines 389–407): no-op on an empty id list,
otherwise the per-tip rule mapped over the store. -/
def update_tip_feedback (pb : Playbook) (used_tip_ids : List String) (goal_status : String) :
    Playbook :=
  if used_tip_ids.isEmpty then pb
  else
    { pb with
      active_tips := pb.active_tips.map (feedback_one used_tip_ids goal_status) }

/-!  Helper lemmas. -/

theorem char_toNat_ofNat_valid {m : Nat} (h : m < 55296) : (Char.ofNat m).toNat = m := by
  have hv : m.isValidChar := Or.inl h
  rw [Char.ofNat, dif_pos hv]
  rfl

/-- Lowercase ASCII letter or digit — what a token character of
`_task_signature` always is. -/
def isLowerAlnum (c : Char) : Bool :=
  (97 ≤ c.toNat && c.toNat ≤ 122) || (48 ≤ c.toNat && c.toNat ≤ 57)

theorem pyLowerChar_not_upper (c : Char) :
    ¬(65 ≤ (pyLowerChar c).toNat ∧ (pyLowerChar c).toNat ≤ 90) := by
  rw [pyLowerChar]
  by_cases h : 65 ≤ c.toNat ∧ c.toNat ≤ 90
  · rw [if_pos h]
    rw [char_toNat_ofNat_valid (by omega)]
    omega
  · rw [if_neg h]
    omega

theorem isLowerAlnum_of_alnum_lower {c : Char}
    (halnum : isAsciiAlnum c = true)
    (hlow : ¬(65 ≤ c.toNat ∧ c.toNat ≤ 90)) : isLowerAlnum c = true := by
  rw [isAsciiAlnum] at halnum
  rw [isLowerAlnum]
  simp only [Bool.or_eq_true, Bool.and_eq_true, decide_eq_true_eq] at halnum ⊢
  omega

theorem string_length_mk (l : List Char) : (String.mk l).length = l.length := rfl

theorem pyTake_length_le (n : Nat) (s : String) : (pyTake n s).length ≤ n := by
  rw [pyTake, string_length_mk]
  calc (s.data.take n).length ≤ n := List.length_take_le n s.data

theorem pyJoin_length_ge_head (sep x : String) (xs : List String) :
    x.length ≤ (pyJoin sep (x :: xs)).length := by
  cases xs with
  | nil => simp [pyJoin]
  | cons y ys =>
    rw [pyJoin]
    rw [String.length_append, String.length_append]
    omega

theorem mem_insertDesc {key : α → ℚ} {x a : α} {l : List α} :
    x ∈ insertDesc key a l ↔ x = a ∨ x ∈ l := by
  induction l with
  | nil => simp [insertDesc]
  | cons y ys ih =>
    rw [insertDesc]
    by_cases h : key y < key a
    · rw [if_pos h]
      simp
    · rw [if_neg h]
      simp only [List.mem_cons, ih]
      tauto

theorem mem_sortDesc_aux {key : α → ℚ} {x : α} :
    ∀ (l acc : List α), x ∈ l.foldl (fun acc y => insertDesc key y acc) acc ↔ x ∈ acc ∨ x ∈ l := by
  intro l
  induction l with
  | nil => simp
  | cons y ys ih =>
    intro acc
    rw [List.foldl_cons, ih, mem_insertDesc]
    simp only [List.mem_cons]
    tauto

theorem mem_sortDesc {key : α → ℚ} {x : α} {l : List α} :
    x ∈ sortDesc key l ↔ x ∈ l := by
  rw [sortDesc, mem_sortDesc_aux]
  simp

theorem insertDesc_pairwise {key : α → ℚ} {a : α} {l : List α}
    (h : l.Pairwise (fun u v => key v ≤ key u)) :
    (insertDesc key a l).Pairwise (fun u v => key v ≤ key u) := by
  induction l with
  | nil => simp [insertDesc]
  | cons y ys ih =>
    rw [insertDesc]
    rcases List.pairwise_cons.mp h with ⟨hy, hys⟩
    by_cases hk : key y < key a
    · rw [if_pos hk]
      refine List.pairwise_cons.mpr ⟨?_, h⟩
      intro b hb
      rcases List.mem_cons.mp hb with rfl | hb2
      · exact le_of_lt hk
      · exact le_trans (hy b hb2) (le_of_lt hk)
    · rw [if_neg hk]
      refine List.pairwise_cons.mpr ⟨?_, ih hys⟩
      intro b hb
      rcases mem_insertDesc.mp hb with rfl | hb2
      · exact le_of_not_lt hk
      · exact hy b hb2

theorem sortDesc_pairwise_aux {key : α → ℚ} :
    ∀ (l acc : List α), acc.Pairwise (fun u v => key v ≤ key u) →
      (l.foldl (fun acc y => insertDesc key y acc) acc).Pairwise (fun u v => key v ≤ key u) := by
  intro l
  induction l with
  | nil => intro acc h; simpa using h
  | cons y ys ih =>
    intro acc h
    rw [List.foldl_cons]
    exact ih _ (insertDesc_pairwise h)

theorem sortDesc_pairwise {key : α → ℚ} {l : List α} :
    (sortDesc key l).Pairwise (fun u v => key v ≤ key u) :=
  sortDesc_pairwise_aux l [] (List.Pairwise.nil)

theorem splitRuns_sound {p : Char → Bool} {q : Char → Prop} :
    ∀ (s acc : List Char), (∀ c ∈ acc, p c = true ∧ q c) →
      (∀ c ∈ s, p c = true → q c) →
      ∀ tok ∈ splitRuns p acc s, tok.data ≠ [] ∧ ∀ c ∈ tok.data, p c = true ∧ q c := by
  intro s
  induction s with
  | nil =>
    intro acc hacc _ tok htok
    rw [splitRuns] at htok
    by_cases he : acc.isEmpty
    · rw [if_pos he] at htok
      simp at htok
    · rw [if_neg he] at htok
      rcases List.mem_singleton.mp htok with rfl
      refine ⟨?_, ?_⟩
      · simpa [List.isEmpty_iff] using fun h2 => he (by simp [List.isEmpty_iff, ← List.reverse_eq_nil_iff, h2])
      · intro c hc
        exact hacc c (List.mem_reverse.mp hc)
  | cons c cs ih =>
    intro acc hacc hs tok htok
    rw [splitRuns] at htok
    by_cases hp : p c
    · rw [if_pos hp] at htok
      refine ih (c :: acc) ?_ (fun d hd hpd => hs d (List.mem_cons_of_mem c hd) hpd) tok htok
      intro d hd
      rcases List.mem_cons.mp hd with hd1 | hd2
      · rw [hd1]
        exact ⟨hp, hs _ (List.mem_cons_self _ _) hp⟩
      · exact hacc d hd2
    · rw [if_neg hp] at htok
      by_cases he : acc.isEmpty
      · rw [if_pos he] at htok
        exact ih [] (by simp) (fun d hd hpd => hs d (List.mem_cons_of_mem c hd) hpd) tok htok
      · rw [if_neg he] at htok
        rcases List.mem_cons.mp htok with rfl | htok2
        · refine ⟨?_, ?_⟩
          · simpa [List.isEmpty_iff] using fun h2 => he (by simp [List.isEmpty_iff, ← List.reverse_eq_nil_iff, h2])
          · intro d hd
            exact hacc d (List.mem_reverse.mp hd)
        · exact ih [] (by simp) (fun d hd hpd => hs d (List.mem_cons_of_mem c hd) hpd) tok htok2

theorem splitRuns_nil_of_none {p : Char → Bool} :
    ∀ (s : List Char), (∀ c ∈ s, p c = false) → splitRuns p [] s = [] := by
  intro s
  induction s with
  | nil => intro _; rfl
  | cons c cs ih =>
    intro h
    rw [splitRuns]
    have hc : p c = false := h c (List.mem_cons_self c cs)
    rw [hc]
    simp only [Bool.false_eq_true, if_false, List.isEmpty_nil, if_pos rfl]
    exact ih (fun d hd => h d (List.mem_cons_of_mem c hd))

theorem word32hex_length (w : Nat) : (word32hex w).length = 8 := rfl

theorem sha256hex_length (msg : List Nat) : (sha256hex msg).length = 64 := by
  rw [sha256hex]
  simp [word32hex_length, List.length_append]

theorem tip_id_ne_empty (tip domain : String) : tip_id tip domain ≠ "" := by
  rw [tip_id]
  intro h
  have h2 : ((sha256hex (strUtf8 (domain ++ "::" ++ tip))).take 12).length = 0 := by
    rw [show ((sha256hex (strUtf8 (domain ++ "::" ++ tip))).take 12) = ("" : String).data from congrArg String.data h]
    rfl
  rw [List.length_take, sha256hex_length] at h2
  omega

theorem idOf_ne_empty_of_wf {t : Tip} (h : t.id ≠ "") : idOf t = t.id := by
  rw [idOf, if_neg h]

/-- A list pairwise-distinct under `f` has at most one element in any
`f`-fiber. -/
theorem pairwise_filter_length_le_one {f : α → String} {k : String} :
    ∀ {l : List α}, l.Pairwise (fun u v => f u ≠ f v) →
      (l.filter (fun x => f x = k)).length ≤ 1 := by
  intro l
  induction l with
  | nil => intro _; simp
  | cons x xs ih =>
    intro h
    rcases List.pairwise_cons.mp h with ⟨hx, hxs⟩
    by_cases hxk : f x = k
    · have : xs.filter (fun y => f y = k) = [] := by
        rw [List.filter_eq_nil_iff]
        intro y hy
        simp only [decide_eq_true_eq]
        intro hyk
        exact hx y hy (by rw [hxk, hyk])
      rw [List.filter_cons_of_pos (by simpa using hxk), this]
      simp
    · rw [List.filter_cons_of_neg (by simpa using hxk)]
      exact ih hxs

/-!  Claim theorems. -/

/-- The regex-redaction phase of `_sanitize_text` on its own. -/
def redact_pass (g : Guardrails) (text : String) : String :=
  g.redact_patterns.foldl (fun acc p => reSub p "[REDACTED]" acc) text

/-- The denylist phase of `_sanitize_text` on its own. -/
def deny_pass (g : Guardrails) (text : String) : String :=
  g.never_store_terms.foldl
    (fun acc term =>
      if isSubstrOf (pyLower term).data (pyLower acc).data then
        pyReplace acc term "[REDACTED]"
      else acc)
    text

/-- C1 (amended): `sanitizeText` is exactly redaction-pass, then
denylist-pass (detection by case-insensitive containment, replacement of
the exact-case occurrences), then hard truncation to 2000 characters; on
the sample secret string it yields `"my [REDACTED]"`, which contains no
recognizable secret substring (neither an `sk-` token nor the key
material nor the denylisted term `api_key`). -/
theorem sanitize_text_pipeline_and_example :
    (∀ (g : Guardrails) (text : String),
      sanitize_text g text =
        if text = "" then "" else pyTake 2000 (deny_pass g (redact_pass g text))) ∧
    (∀ (g : Guardrails) (text : String), (sanitize_text g text).length ≤ 2000) ∧
    sanitize_text default_guardrails "my api_key: sk-ABCDEFGHIJKLMNOPQRSTUVWX"
      = "my [REDACTED]" ∧
    (isSubstrOf "sk-".data
      (sanitize_text default_guardrails "my api_key: sk-ABCDEFGHIJKLMNOPQRSTUVWX").data
      = false ∧
     isSubstrOf "ABCDEFGHIJKLMNOPQRSTUVWX".data
      (sanitize_text default_guardrails "my api_key: sk-ABCDEFGHIJKLMNOPQRSTUVWX").data
      = false ∧
     isSubstrOf "api_key".data
      (pyLower (sanitize_text default_guardrails "my api_key: sk-ABCDEFGHIJKLMNOPQRSTUVWX")).data
      = false) := by
  refine ⟨fun g text => rfl, ?_, by decide, by decide, by decide, by decide⟩
  intro g text
  by_cases h : text = ""
  · rw [show sanitize_text g text = if text = "" then "" else pyTake 2000 (deny_pass g (redact_pass g text)) from rfl, if_pos h]
    decide
  · rw [show sanitize_text g text = if text = "" then "" else pyTake 2000 (deny_pass g (redact_pass g text)) from rfl, if_neg h]
    exact pyTake_length_le 2000 _

/-- C1 counterexample: the denylist check is case-insensitive but the
replacement is Python's case-sensitive `str.replace`, so a denylisted
term occurring only in a different letter case survives sanitization:
`"My Password"` contains `password` by case-insensitive containment, yet
is returned unchanged. -/
theorem sanitize_text_case_replace_cex :
    sanitize_text default_guardrails "My Password" = "My Password" ∧
    isSubstrOf (pyLower "password").data (pyLower "My Password").data = true := by
  exact ⟨by decide, by decide⟩

/-- C8 (amended): a task signature is a list (duplicates are possible) of
at most 12 tokens, each a nonempty all-lowercase-alphanumeric string not
on the stop-word list, extracted by splitting the lowercased task on
non-alphanumeric boundaries; a whitespace-only task yields the empty
signature.  (Determinism is inherent: `task_signature` is a pure
function.) -/
theorem task_signature_tokens (task : String) :
    (task_signature task).length ≤ 12 ∧
    (∀ tok ∈ task_signature task,
      tok ≠ "" ∧ ¬ stop_words.contains tok ∧ ∀ c ∈ tok.data, isLowerAlnum c = true) ∧
    ((∀ c ∈ task.data, pySpaceChar c = true) → task_signature task = []) := by
  refine ⟨List.length_take_le _ _, ?_, ?_⟩
  · intro tok htok
    rw [task_signature] at htok
    have htok2 := List.mem_of_mem_take htok
    rcases List.mem_filter.mp htok2 with ⟨hmem, hpred⟩
    have hsound := splitRuns_sound (q := fun c => ¬(65 ≤ c.toNat ∧ c.toNat ≤ 90))
      (pyLower task).data [] (by simp)
      (fun c hc _ => by
        rcases List.mem_map.mp (by simpa [pyLower] using hc) with ⟨c0, _, hc0⟩
        rw [← hc0]
        exact pyLowerChar_not_upper c0)
      tok hmem
    simp only [decide_eq_true_eq, decide_not, Bool.and_eq_true, ne_eq,
      Bool.not_eq_true', decide_eq_false_iff_not] at hpred
    refine ⟨hpred.1, hpred.2, ?_⟩
    intro c hc
    exact isLowerAlnum_of_alnum_lower (hsound.2 c hc).1 (hsound.2 c hc).2
  · intro hws
    rw [task_signature]
    have : splitRuns isAsciiAlnum [] (pyLower task).data = [] := by
      apply splitRuns_nil_of_none
      intro c hc
      rcases List.mem_map.mp (by simpa [pyLower] using hc) with ⟨c0, hc0mem, hc0⟩
      have hsp : pySpaceChar c0 = true := hws c0 hc0mem
      rw [pySpaceChar] at hsp
      simp only [Bool.or_eq_true, decide_eq_true_eq] at hsp
      have hid : pyLowerChar c0 = c0 := by
        rw [pyLowerChar, if_neg (by omega)]
      rw [← hc0, hid]
      simp only [isAsciiAlnum, Bool.or_eq_false_iff, Bool.and_eq_false_iff,
        decide_eq_false_iff_not, not_le]
      omega
    rw [this]
    rfl

/-- C8 witness: the theorem applied at concrete tasks, discharging the
membership and whitespace hypotheses. -/
theorem task_signature_tokens_witness :
    task_signature "   " = [] ∧
    ("frobnicate" ≠ "" ∧ ¬ stop_words.contains "frobnicate" ∧
      ∀ c ∈ "frobnicate".data, isLowerAlnum c = true) :=
  ⟨(task_signature_tokens "   ").2.2 (by decide),
   (task_signature_tokens "Frobnicate the page").2.1 "frobnicate" (by decide)⟩

/-- C8 counterexample: `_task_signature` does not deduplicate, so the
signature is not a set of distinct tokens as claimed. -/
theorem task_signature_dup_cex :
    task_signature "check check" = ["check", "check"] ∧
    ¬ (task_signature "check check").Nodup := by
  exact ⟨by decide, by decide⟩

theorem tip_obj_tip (s : String) (sig : List String) (task : String) (conf : ℚ)
    (dom : String) (now : Int) : (tip_obj s sig task conf dom now).tip = s := rfl

theorem outcome_tip_len (task outc : String) :
    ("When tackling '" ++ task ++ "', keep the last observed outcome in mind: " ++
      pyTake 280 outc).length ≤ task.length + 338 := by
  rw [String.length_append, String.length_append, String.length_append]
  have h1 : ("When tackling '" : String).length = 15 := rfl
  have h2 : ("', keep the last observed outcome in mind: " : String).length = 43 := rfl
  have h3 := pyTake_length_le 280 outc
  omega

theorem error_tip_len (task err : String) :
    ("Avoid repeating this failure for '" ++ task ++ "': " ++
      pyTake 180 err).length ≤ task.length + 338 := by
  rw [String.length_append, String.length_append, String.length_append]
  have h1 : ("Avoid repeating this failure for '" : String).length = 34 := rfl
  have h2 : ("': " : String).length = 3 := rfl
  have h3 := pyTake_length_le 180 err
  omega

theorem actions_tip_len (task summ : String) :
    ("Recent actions for '" ++ task ++ "': " ++ pyTake 280 summ).length ≤
      task.length + 338 := by
  rw [String.length_append, String.length_append, String.length_append]
  have h1 : ("Recent actions for '" : String).length = 20 := rfl
  have h2 : ("': " : String).length = 3 := rfl
  have h3 := pyTake_length_le 280 summ
  omega

theorem fallback_tip_len (task : String) :
    ("Log kept for '" ++ task ++ "', no specific guidance yet.").length ≤
      task.length + 338 := by
  rw [String.length_append, String.length_append]
  have h1 : ("Log kept for '" : String).length = 14 := rfl
  have h2 : ("', no specific guidance yet." : String).length = 28 := rfl
  omega

theorem mem_ite_list {P : Prop} [Decidable P] {l : List α} {t : α}
    (h : t ∈ (if P then l else [])) : t ∈ l := by
  split at h
  · exact h
  · simp at h

/-- C7 (amended): every tip produced by the Curator has advisory text of
at most `(trimmed task length) + 338` characters — the 280-character cap
of the spec applies only to the interpolated outcome (280 chars), error
(180 chars) and action-summary (280 chars) fragments, while the tip text
additionally embeds the whole task string and a fixed template. -/
theorem curate_tip_length_bound (now : Int) (entry : RunEntry) (domain : String) :
    ∀ t ∈ curate_entry now entry domain,
      t.tip.length ≤ (pyStrip entry.task).length + 338 := by
  intro t ht
  rw [curate_entry] at ht
  split at ht
  · rcases List.mem_singleton.mp ht with rfl
    rw [tip_obj_tip]
    exact fallback_tip_len _
  · rw [curate_candidates] at ht
    rcases List.mem_append.mp ht with h1 | h2
    · rcases List.mem_append.mp h1 with h3 | h4
      · rcases List.mem_singleton.mp (mem_ite_list h3) with rfl
        rw [tip_obj_tip]
        exact outcome_tip_len _ _
      · rcases List.mem_map.mp h4 with ⟨err, _, heq⟩
        rw [← heq, tip_obj_tip]
        exact error_tip_len _ _
    · rcases List.mem_singleton.mp (mem_ite_list h2) with rfl
      rw [tip_obj_tip]
      exact actions_tip_len _ _

set_option maxRecDepth 10000 in
/-- C7 witness: the theorem applied to the fallback tip of a minimal run
entry. -/
theorem curate_tip_length_bound_witness :
    tip_obj "Log kept for 'x', no specific guidance yet." [] "x" (1/2) "default" 0 ∈
      curate_entry 0 { task := "x", outcome := "", errors := [], actions := [], signature := [] }
        "default" ∧
    (tip_obj "Log kept for 'x', no specific guidance yet." [] "x" (1/2) "default" 0).tip.length ≤
      (pyStrip "x").length + 338 :=
  have hmem : tip_obj "Log kept for 'x', no specific guidance yet." [] "x" (1/2) "default" 0 ∈
      curate_entry 0 { task := "x", outcome := "", errors := [], actions := [], signature := [] }
        "default" := by
    rw [show curate_entry 0
        { task := "x", outcome := "", errors := [], actions := [], signature := [] } "default" =
        [tip_obj "Log kept for 'x', no specific guidance yet." [] "x" (1/2) "default" 0] from rfl]
    exact List.mem_singleton.mpr rfl
  ⟨hmem, curate_tip_length_bound 0
    { task := "x", outcome := "", errors := [], actions := [], signature := [] } "default" _ hmem⟩

set_option maxRecDepth 10000 in
/-- C7 counterexample: an entry with an empty task and a 300-character
outcome produces a single curated tip whose advisory text has 338
characters, refuting the claimed flat 280-character bound on tip text. -/
theorem curate_tip_length_cex :
    ((curate_entry 0
      { task := "", outcome := ⟨List.replicate 300 'x'⟩, errors := [], actions := [],
        signature := [] } "d").map (fun t => t.tip.length)) = [338] ∧ 280 < 338 := by
  exact ⟨by decide, by decide⟩

/-- The decay factor as a function of whole days elapsed (spec § 4.5):
`max(0.5, 1 − 0.02·daysOld)`. -/
def decay_factor_spec (d : ℤ) : ℚ := max (1/2) (1 - (2/100) * (d : ℚ))

/-- The decayed confidence as the code computes it: the spec formula
`max(0.1, confidence × decayFactor)` followed by rounding to 2 decimals. -/
def decay_conf_spec (c : ℚ) (d : ℤ) : ℚ := round2 (max (1/10) (c * decay_factor_spec d))

/-- C4 (amended): `_apply_decay` computes, per tip, whole days since
`lastUsed` (falling back to `createdAt`, and to now when absent or
unparseable), the decay factor `max(0.5, 1 − 0.02·daysOld)`, and the new
confidence `round(max(0.1, confidence × decayFactor), 2)` — the rounding
step is the amendment; consequently decayed confidence is antitone in the
elapsed days (for nonnegative confidence), never drops below the 0.1
floor, and the 0.5 decay-factor floor is reached at day 25 and beyond. -/
theorem decay_formula_monotonic_floor :
    (∀ (now : Int) (tips : List Tip),
      apply_decay now tips = tips.map (fun t =>
        { t with confidence :=
            decay_conf_spec t.confidence (Int.fdiv (now - effLast now t) 86400) })) ∧
    (∀ (c : ℚ) (d1 d2 : ℤ), 0 ≤ c → d1 < d2 →
      decay_conf_spec c d2 ≤ decay_conf_spec c d1) ∧
    (∀ (c : ℚ) (d : ℤ), 1/10 ≤ decay_conf_spec c d) ∧
    (decay_factor_spec 25 = 1/2 ∧ ∀ d : ℤ, 25 ≤ d → decay_factor_spec d = 1/2) := by
  refine ⟨fun now tips => rfl, ?_, ?_, ?_, ?_⟩
  · intro c d1 d2 hc h12
    apply round2_mono
    apply max_le_max le_rfl
    apply mul_le_mul_of_nonneg_left ?_ hc
    apply max_le_max le_rfl
    have : (d1 : ℚ) ≤ (d2 : ℚ) := by exact_mod_cast le_of_lt h12
    nlinarith
  · intro c d
    rw [decay_conf_spec]
    calc (1/10 : ℚ) = round2 (1/10) := round2_tenth.symm
    _ ≤ round2 (max (1/10) (c * decay_factor_spec d)) := round2_mono (le_max_left _ _)
  · rw [decay_factor_spec]
    norm_num
  · intro d hd
    rw [decay_factor_spec, max_eq_left]
    have : (25 : ℚ) ≤ (d : ℚ) := by exact_mod_cast hd
    nlinarith

set_option maxRecDepth 10000 in
/-- C4 witness: the theorem applied at a concrete confidence and concrete
day counts, discharging its hypotheses. -/
theorem decay_formula_monotonic_floor_witness :
    decay_conf_spec (3/5) 2 ≤ decay_conf_spec (3/5) 1 ∧
    (1/10 : ℚ) ≤ decay_conf_spec (3/5) 400 ∧
    decay_factor_spec 30 = 1/2 :=
  ⟨decay_formula_monotonic_floor.2.1 (3/5) 1 2 (by norm_num) (by decide),
   decay_formula_monotonic_floor.2.2.1 (3/5) 400,
   decay_formula_monotonic_floor.2.2.2.2 30 (by decide)⟩

set_option maxRecDepth 10000 in
/-- C4 counterexample: for a tip of confidence 0.61 last used exactly one
day ago, the code stores `round(0.61·0.98, 2) = 0.6`, not the claimed
un-rounded `max(0.1, 0.61 × 0.98) = 0.5978`. -/
theorem decay_rounding_cex :
    ((apply_decay 86400
      [{ id := "t", tip := "t", confidence := 61/100, task_signature := [], task := "",
         created_at := some (some 0), last_used := some (some 0), domain := "d",
         helpful_count := 0, harmful_count := 0 }]).map (fun t => t.confidence)) = [3/5] ∧
    (3/5 : ℚ) ≠ max (1/10) ((61/100) * max (1/2) (1 - (2/100) * 1)) := by
  exact ⟨by with_unfolding_all decide, by with_unfolding_all decide⟩

theorem prune_tips_spec (tips : List Tip) :
    (prune_tips tips).length ≤ 20 ∧
    (∀ t ∈ prune_tips tips, (1/5 : ℚ) ≤ t.confidence) ∧
    (prune_tips tips).Pairwise (fun a b => b.confidence ≤ a.confidence) := by
  refine ⟨List.length_take_le _ _, ?_, ?_⟩
  · intro t ht
    have h1 := List.mem_of_mem_take ht
    have h2 := mem_sortDesc.mp h1
    rcases List.mem_filter.mp h2 with ⟨_, hpred⟩
    simpa using hpred
  · exact List.Pairwise.sublist (List.take_sublist _ _) sortDesc_pairwise

/-- C3: after the decay-then-evict pass that ends `_update_active_tips`,
the stored active-tip list has at most 20 entries, every retained tip has
confidence at least 0.2, and the list is ordered by non-increasing
confidence (eviction filters, sorts descending, truncates to 20). -/
theorem merge_capacity_bound (now : Int) (pb : Playbook) (new_tips : List Tip) :
    ((update_active_tips now pb new_tips).active_tips.length ≤ 20) ∧
    (∀ t ∈ (update_active_tips now pb new_tips).active_tips, (1/5 : ℚ) ≤ t.confidence) ∧
    ((update_active_tips now pb new_tips).active_tips.Pairwise
      (fun a b => b.confidence ≤ a.confidence)) := by
  rw [update_active_tips]
  exact prune_tips_spec _

/-- A concrete structured tip used to instantiate witnesses. -/
def sampleTip (i : String) (c : ℚ) (dom : String) : Tip :=
  { id := i, tip := "advice", confidence := c, task_signature := [], task := "",
    created_at := some (some 0), last_used := some (some 0), domain := dom,
    helpful_count := 0, harmful_count := 0 }

set_option maxRecDepth 10000 in
/-- C3 witness: the capacity-bound theorem applied to a store that has
just merged one concrete candidate. -/
theorem merge_capacity_bound_witness :
    sampleTip "abcdef123456" (9/10) "d" ∈
      (update_active_tips 0 { active_tips := [], preferences := [] }
        [sampleTip "abcdef123456" (9/10) "d"]).active_tips ∧
    (1/5 : ℚ) ≤ (sampleTip "abcdef123456" (9/10) "d").confidence :=
  ⟨by with_unfolding_all decide,
   (merge_capacity_bound 0 { active_tips := [], preferences := [] }
     [sampleTip "abcdef123456" (9/10) "d"]).2.1 _ (by with_unfolding_all decide)⟩

/-- C6: `applyFeedback` is a no-op on an empty id list; a matched tip is
updated by exactly the claimed formulas (success: `helpfulCount+1`,
confidence capped at 1.0; failed/blocked: `harmfulCount+1`, confidence
floored at 0.1; any other status: unchanged); and the [0.1, 1.0]
confidence bounds are preserved by every feedback application, so
repeated feedback can never escape them. -/
theorem feedback_rules_and_bounds :
    (∀ (pb : Playbook) (status : String), update_tip_feedback pb [] status = pb) ∧
    (∀ (pb : Playbook) (used : List String) (status : String) (i : Nat) (t : Tip),
      used ≠ [] → pb.active_tips.get? i = some t →
      (update_tip_feedback pb used status).active_tips.get? i = some (
        if used.contains (idOf t) then
          if status = "success" then
            { t with helpful_count := t.helpful_count + 1,
                     confidence := min 1 (t.confidence + 1/20) }
          else if status = "failed" ∨ status = "blocked" then
            { t with harmful_count := t.harmful_count + 1,
                     confidence := max (1/10) (t.confidence - 1/20) }
          else t
        else t)) ∧
    (∀ (pb : Playbook) (used : List String) (status : String),
      (∀ t ∈ pb.active_tips, t.confidence ≤ 1) →
      ∀ t2 ∈ (update_tip_feedback pb used status).active_tips, t2.confidence ≤ 1) ∧
    (∀ (pb : Playbook) (used : List String) (status : String),
      (∀ t ∈ pb.active_tips, (1/10 : ℚ) ≤ t.confidence) →
      ∀ t2 ∈ (update_tip_feedback pb used status).active_tips, (1/10 : ℚ) ≤ t2.confidence) := by
  refine ⟨?_, ?_, ?_, ?_⟩
  · intro pb status
    simp [update_tip_feedback]
  · intro pb used status i t hne hget
    rw [update_tip_feedback, if_neg (by simpa [List.isEmpty_iff] using hne)]
    show (pb.active_tips.map _).get? i = _
    rw [List.get?_eq_getElem?, List.getElem?_map, ← List.get?_eq_getElem?, hget]
    rfl
  · intro pb used status hub t2 ht2
    rw [update_tip_feedback] at ht2
    split at ht2
    · exact hub t2 ht2
    · rcases List.mem_map.mp ht2 with ⟨t, hmem, heq⟩
      rw [← heq, feedback_one]
      split
      · split
        · exact min_le_left _ _
        · split
          · exact max_le (by norm_num) (by linarith [hub t hmem])
          · exact hub t hmem
      · exact hub t hmem
  · intro pb used status hlb t2 ht2
    rw [update_tip_feedback] at ht2
    split at ht2
    · exact hlb t2 ht2
    · rcases List.mem_map.mp ht2 with ⟨t, hmem, heq⟩
      rw [← heq, feedback_one]
      split
      · split
        · exact le_min (by norm_num) (by linarith [hlb t hmem])
        · split
          · exact le_max_left _ _
          · exact hlb t hmem
      · exact hlb t hmem

set_option maxRecDepth 10000 in
/-- C6 witness: the theorem applied to a one-tip store receiving success
feedback, discharging the nonempty-list, indexing and bound
hypotheses. -/
theorem feedback_rules_and_bounds_witness :
    ((update_tip_feedback { active_tips := [sampleTip "aaa" (1/2) "d"], preferences := [] }
        ["aaa"] "success").active_tips.get? 0 = some (
      if ["aaa"].contains (idOf (sampleTip "aaa" (1/2) "d")) then
        if "success" = "success" then
          { sampleTip "aaa" (1/2) "d" with
              helpful_count := (sampleTip "aaa" (1/2) "d").helpful_count + 1,
              confidence := min 1 ((sampleTip "aaa" (1/2) "d").confidence + 1/20) }
        else if ("success" : String) = "failed" ∨ ("success" : String) = "blocked" then
          { sampleTip "aaa" (1/2) "d" with
              harmful_count := (sampleTip "aaa" (1/2) "d").harmful_count + 1,
              confidence := max (1/10) ((sampleTip "aaa" (1/2) "d").confidence - 1/20) }
        else sampleTip "aaa" (1/2) "d"
      else sampleTip "aaa" (1/2) "d")) ∧
    (∀ t2 ∈ (update_tip_feedback { active_tips := [sampleTip "aaa" (1/2) "d"], preferences := [] }
        ["aaa"] "success").active_tips, t2.confidence ≤ 1) :=
  ⟨feedback_rules_and_bounds.2.1 _ ["aaa"] "success" 0 _ (by decide)
    (by with_unfolding_all decide),
   feedback_rules_and_bounds.2.2.1 _ ["aaa"] "success"
    (by intro t ht; rcases List.mem_singleton.mp ht with rfl; with_unfolding_all decide)⟩

theorem feedback_one_frame (used : List String) (status : String) (t : Tip) :
    (feedback_one used status t).id = t.id ∧
    (feedback_one used status t).tip = t.tip ∧
    (feedback_one used status t).task = t.task ∧
    (feedback_one used status t).task_signature = t.task_signature ∧
    (feedback_one used status t).domain = t.domain ∧
    (feedback_one used status t).created_at = t.created_at ∧
    (feedback_one used status t).last_used = t.last_used := by
  rw [feedback_one]
  split
  · split
    · exact ⟨rfl, rfl, rfl, rfl, rfl, rfl, rfl⟩
    · split
      · exact ⟨rfl, rfl, rfl, rfl, rfl, rfl, rfl⟩
      · exact ⟨rfl, rfl, rfl, rfl, rfl, rfl, rfl⟩
  · exact ⟨rfl, rfl, rfl, rfl, rfl, rfl, rfl⟩

theorem feedback_one_idOf (used : List String) (status : String) (t : Tip) :
    idOf (feedback_one used status t) = idOf t := by
  rcases feedback_one_frame used status t with ⟨h1, h2, _, _, h5, _, _⟩
  rw [idOf, idOf, h1, h2, h5]

/-- C10: `applyFeedback` neither inserts nor removes tips — the stored
identity list is unchanged (so a tip pushed below the 0.2 retention
threshold by failure feedback stays in the store until the next
merge/retrieval eviction pass runs) — and every field other than
`confidence`, `helpfulCount` and `harmfulCount` of every stored tip is
unchanged. -/
theorem feedback_frame (pb : Playbook) (used : List String) (status : String) :
    ((update_tip_feedback pb used status).active_tips.map idOf = pb.active_tips.map idOf) ∧
    ((update_tip_feedback pb used status).active_tips.length = pb.active_tips.length) ∧
    (∀ (i : Nat) (t t2 : Tip), pb.active_tips.get? i = some t →
      (update_tip_feedback pb used status).active_tips.get? i = some t2 →
      t2.id = t.id ∧ t2.tip = t.tip ∧ t2.task = t.task ∧
      t2.task_signature = t.task_signature ∧ t2.domain = t.domain ∧
      t2.created_at = t.created_at ∧ t2.last_used = t.last_used) := by
  rw [update_tip_feedback]
  split
  · refine ⟨rfl, rfl, fun i t t2 h1 h2 => ?_⟩
    rw [h1, Option.some.injEq] at h2
    rw [← h2]
    exact ⟨rfl, rfl, rfl, rfl, rfl, rfl, rfl⟩
  · refine ⟨?_, List.length_map _ _, ?_⟩
    · show (pb.active_tips.map _).map idOf = _
      rw [List.map_map]
      apply List.map_congr_left
      intro t _
      exact feedback_one_idOf used status t
    · intro i t t2 h1 h2
      have h3 : (pb.active_tips.map (feedback_one used status)).get? i = some t2 := h2
      rw [List.get?_eq_getElem?, List.getElem?_map, ← List.get?_eq_getElem?, h1,
        Option.map_some', Option.some.injEq] at h3
      rw [← h3]
      exact feedback_one_frame used status t

set_option maxRecDepth 10000 in
/-- C10 witness: failure feedback drives a 0.12-confidence tip down to the
0.1 floor — below the 0.2 retention threshold — yet the tip is still
stored at its index with identity and display fields intact. -/
theorem feedback_frame_witness :
    ((update_tip_feedback { active_tips := [sampleTip "aaa" (3/25) "d"], preferences := [] }
        ["aaa"] "failed").active_tips.get? 0 =
      some (feedback_one ["aaa"] "failed" (sampleTip "aaa" (3/25) "d"))) ∧
    ((feedback_one ["aaa"] "failed" (sampleTip "aaa" (3/25) "d")).confidence = 1/10 ∧
      (1/10 : ℚ) < 1/5) ∧
    ((feedback_one ["aaa"] "failed" (sampleTip "aaa" (3/25) "d")).id =
        (sampleTip "aaa" (3/25) "d").id ∧
      (feedback_one ["aaa"] "failed" (sampleTip "aaa" (3/25) "d")).tip =
        (sampleTip "aaa" (3/25) "d").tip ∧
      (feedback_one ["aaa"] "failed" (sampleTip "aaa" (3/25) "d")).task =
        (sampleTip "aaa" (3/25) "d").task ∧
      (feedback_one ["aaa"] "failed" (sampleTip "aaa" (3/25) "d")).task_signature =
        (sampleTip "aaa" (3/25) "d").task_signature ∧
      (feedback_one ["aaa"] "failed" (sampleTip "aaa" (3/25) "d")).domain =
        (sampleTip "aaa" (3/25) "d").domain ∧
      (feedback_one ["aaa"] "failed" (sampleTip "aaa" (3/25) "d")).created_at =
        (sampleTip "aaa" (3/25) "d").created_at ∧
      (feedback_one ["aaa"] "failed" (sampleTip "aaa" (3/25) "d")).last_used =
        (sampleTip "aaa" (3/25) "d").last_used) :=
  ⟨by with_unfolding_all decide,
   ⟨by with_unfolding_all decide, by norm_num⟩,
   (feedback_frame { active_tips := [sampleTip "aaa" (3/25) "d"], preferences := [] }
      ["aaa"] "failed").2.2 0 (sampleTip "aaa" (3/25) "d")
      (feedback_one ["aaa"] "failed" (sampleTip "aaa" (3/25) "d"))
      (by with_unfolding_all decide) (by with_unfolding_all decide)⟩

/-- Well-formedness of the identity-keyed dictionary: keys are pairwise
distinct, each entry is stored under the identity of its tip, and stored
tips carry a nonempty `id` field. -/
def DictInv (d : List (String × Tip)) : Prop :=
  d.Pairwise (fun p q => p.1 ≠ q.1) ∧ ∀ p ∈ d, p.1 = idOf p.2 ∧ p.2.id ≠ ""

theorem idOf_ne_empty (t : Tip) : idOf t ≠ "" := by
  rw [idOf]
  split
  · exact tip_id_ne_empty _ _
  · assumption

theorem dictSet_inv {d : List (String × Tip)} {k : String} {v : Tip}
    (h : DictInv d) (hk : k = idOf v) (hv : v.id ≠ "") : DictInv (dictSet d k v) := by
  rcases h with ⟨hpair, hmem⟩
  rw [dictSet]
  split
  · constructor
    · rw [List.pairwise_map]
      refine hpair.imp ?_
      intro p q hpq
      have hfst : ∀ r : String × Tip, ((if r.1 = k then (k, v) else r) : String × Tip).1 = r.1 := by
        intro r
        split
        · simpa using (by assumption : r.1 = k).symm
        · rfl
      rw [hfst p, hfst q]
      exact hpq
    · intro p hp
      rcases List.mem_map.mp hp with ⟨r, hr, hrp⟩
      by_cases hrk : r.1 = k
      · rw [if_pos hrk] at hrp
        rw [← hrp]
        exact ⟨hk, hv⟩
      · rw [if_neg hrk] at hrp
        rw [← hrp]
        exact hmem r hr
  · constructor
    · rw [List.pairwise_append]
      refine ⟨hpair, List.pairwise_singleton _ _, ?_⟩
      intro p hp q hq
      rcases List.mem_singleton.mp hq with rfl
      intro hcontra
      have : d.any (fun p => p.1 = k) = true :=
        List.any_eq_true.mpr ⟨p, hp, by simpa using hcontra⟩
      simp_all
    · intro p hp
      rcases List.mem_append.mp hp with hp1 | hp2
      · exact hmem p hp1
      · rcases List.mem_singleton.mp hp2 with rfl
        exact ⟨hk, hv⟩

theorem buildIndex_inv {ex : List Tip} (hex : ∀ t ∈ ex, t.id ≠ "") :
    DictInv (buildIndex ex) := by
  rw [buildIndex]
  have main : ∀ (l : List Tip) (acc : List (String × Tip)), (∀ t ∈ l, t.id ≠ "") →
      DictInv acc → DictInv (l.foldl (fun d t => dictSet d (idOf t) t) acc) := by
    intro l
    induction l with
    | nil => intro acc _ hacc; simpa using hacc
    | cons t ts ih =>
      intro acc hl hacc
      rw [List.foldl_cons]
      refine ih _ (fun u hu => hl u (List.mem_cons_of_mem t hu)) ?_
      exact dictSet_inv hacc rfl (hl t (List.mem_cons_self t ts))
  exact main ex [] hex ⟨List.Pairwise.nil, by simp⟩

theorem lookupKey_some_mem {d : List (String × Tip)} {k : String} {e : Tip}
    (h : lookupKey d k = some e) : (k, e) ∈ d := by
  rw [lookupKey] at h
  rcases Option.map_eq_some'.mp h with ⟨p, hfind, hsnd⟩
  have h1 := List.find?_some hfind
  have h2 := List.mem_of_find?_eq_some hfind
  have : p = (k, e) := by
    rcases p with ⟨pk, pv⟩
    simp only [decide_eq_true_eq] at h1
    simp only at hsnd
    rw [h1, hsnd]
  rw [← this]
  exact h2

theorem lookupKey_none_forall {d : List (String × Tip)} {k : String}
    (h : lookupKey d k = none) : ∀ p ∈ d, p.1 ≠ k := by
  rw [lookupKey, Option.map_eq_none'] at h
  intro p hp
  have := List.find?_eq_none.mp h p hp
  simpa using this

theorem updateExisting_id (now : Int) (e c : Tip) :
    (updateExisting now e c).id = e.id := rfl

theorem idOf_set_id (t : Tip) (s : String) (hs : s ≠ "") : idOf { t with id := s } = s := by
  have h : ({ t with id := s } : Tip).id = s := rfl
  rw [idOf, h, if_neg hs]

theorem mergeStep_inv {now : Int} {d : List (String × Tip)} {c : Tip}
    (h : DictInv d) : DictInv (mergeStep now d c) := by
  rw [mergeStep]
  cases hl : lookupKey d (idOf c) with
  | some e =>
    have hmem := lookupKey_some_mem hl
    rcases h.2 _ hmem with ⟨hkey, hne⟩
    simp only at hkey hne
    have hkey2 : idOf c = e.id := by
      rw [hkey, idOf, if_neg hne]
    refine dictSet_inv h ?_ ?_
    · calc idOf c = e.id := hkey2
      _ = idOf (updateExisting now e { c with id := idOf c }) := by
        rw [idOf, updateExisting_id, if_neg hne]
    · rw [updateExisting_id]
      exact hne
  | none =>
    rcases h with ⟨hpair, hmem⟩
    constructor
    · rw [List.pairwise_append]
      refine ⟨hpair, List.pairwise_singleton _ _, ?_⟩
      intro p hp q hq
      rcases List.mem_singleton.mp hq with rfl
      exact lookupKey_none_forall hl p hp
    · intro p hp
      rcases List.mem_append.mp hp with hp1 | hp2
      · exact hmem p hp1
      · rcases List.mem_singleton.mp hp2 with rfl
        refine ⟨(idOf_set_id c (idOf c) (idOf_ne_empty c)).symm, ?_⟩
        show ({ c with id := idOf c } : Tip).id ≠ ""
        rw [show ({ c with id := idOf c } : Tip).id = idOf c from rfl]
        exact idOf_ne_empty c

theorem mergeTips_pairwise_idOf {now : Int} {ex cs : List Tip}
    (hex : ∀ t ∈ ex, t.id ≠ "") :
    (mergeTips now ex cs).Pairwise (fun a b => idOf a ≠ idOf b) := by
  rw [mergeTips]
  have hinv : DictInv (cs.foldl (mergeStep now) (buildIndex ex)) := by
    have main : ∀ (l : List Tip) (acc : List (String × Tip)), DictInv acc →
        DictInv (l.foldl (mergeStep now) acc) := by
      intro l
      induction l with
      | nil => intro acc hacc; simpa using hacc
      | cons t ts ih =>
        intro acc hacc
        rw [List.foldl_cons]
        exact ih _ (mergeStep_inv hacc)
    exact main cs _ (buildIndex_inv hex)
  rw [List.pairwise_map]
  refine hinv.1.imp_of_mem ?_
  intro p q hp hq hpq
  rw [← (hinv.2 p hp).1, ← (hinv.2 q hq).1]
  exact hpq

/-- C2 (amended): tip identity is the deterministic hash of
`(domain, tip-text)`; a candidate whose identity matches a stored tip
updates it in place — confidence becomes
`round(min(1.0, existing×0.7 + candidate×0.5), 2)` (the rounding is the
amendment), `task`/`domain`/`lastUsed` are refreshed, `taskSignature` is
refreshed except when the candidate's signature is empty (Python-falsy
`or`, the second amendment), counters and id are untouched — a candidate
with no identity match is appended as a new tip, and after the merge the
store holds at most one record per identity, so two tips with the same
`(domain, text)` always collapse to one record. -/
theorem merge_update_insert_collapse :
    (∀ (now : Int) (d : List (String × Tip)) (c e : Tip),
      lookupKey d (idOf c) = some e →
        mergeStep now d c =
          dictSet d (idOf c) (updateExisting now e { c with id := idOf c }) ∧
        (updateExisting now e { c with id := idOf c }).confidence =
          round2 (min 1 (e.confidence * (7/10) + c.confidence * (1/2))) ∧
        (updateExisting now e { c with id := idOf c }).helpful_count = e.helpful_count ∧
        (updateExisting now e { c with id := idOf c }).harmful_count = e.harmful_count ∧
        (updateExisting now e { c with id := idOf c }).task = c.task ∧
        (updateExisting now e { c with id := idOf c }).domain = c.domain ∧
        (updateExisting now e { c with id := idOf c }).last_used = some (some now) ∧
        (updateExisting now e { c with id := idOf c }).task_signature =
          (if c.task_signature.isEmpty then e.task_signature else c.task_signature) ∧
        (updateExisting now e { c with id := idOf c }).id = e.id) ∧
    (∀ (now : Int) (d : List (String × Tip)) (c : Tip),
      lookupKey d (idOf c) = none →
        mergeStep now d c = d ++ [(idOf c, { c with id := idOf c })]) ∧
    (∀ (now : Int) (ex cs : List Tip), (∀ t ∈ ex, t.id ≠ "") →
      (mergeTips now ex cs).Pairwise (fun a b => idOf a ≠ idOf b)) ∧
    (∀ (now : Int) (ex cs : List Tip) (text dom : String), (∀ t ∈ ex, t.id ≠ "") →
      ((mergeTips now ex cs).filter (fun t => idOf t = tip_id text dom)).length ≤ 1) := by
  refine ⟨?_, ?_, ?_, ?_⟩
  · intro now d c e hl
    refine ⟨?_, rfl, rfl, rfl, rfl, rfl, rfl, rfl, rfl⟩
    rw [mergeStep]
    rw [show (lookupKey d (idOf c)) = some e from hl]
  · intro now d c hl
    rw [mergeStep]
    rw [show (lookupKey d (idOf c)) = none from hl]
  · intro now ex cs hex
    exact mergeTips_pairwise_idOf hex
  · intro now ex cs text dom hex
    exact pairwise_filter_length_le_one (mergeTips_pairwise_idOf hex)

set_option maxRecDepth 10000 in
/-- C2 witness: both merge branches exercised concretely — an
identity-matched candidate updates the stored record in place, and an
unmatched candidate is appended — with the hypotheses discharged by
evaluation. -/
theorem merge_update_insert_collapse_witness :
    (mergeStep 0 [("aaa", sampleTip "aaa" (61/100) "d")] (sampleTip "aaa" (1/2) "d") =
      dictSet [("aaa", sampleTip "aaa" (61/100) "d")] (idOf (sampleTip "aaa" (1/2) "d"))
        (updateExisting 0 (sampleTip "aaa" (61/100) "d")
          { sampleTip "aaa" (1/2) "d" with id := idOf (sampleTip "aaa" (1/2) "d") })) ∧
    (mergeStep 0 [("bbb", sampleTip "bbb" (61/100) "d")] (sampleTip "aaa" (1/2) "d") =
      [("bbb", sampleTip "bbb" (61/100) "d")] ++
        [(idOf (sampleTip "aaa" (1/2) "d"),
          { sampleTip "aaa" (1/2) "d" with id := idOf (sampleTip "aaa" (1/2) "d") })]) ∧
    ((mergeTips 0 [sampleTip "aaa" (61/100) "d"] [sampleTip "aaa" (1/2) "d"]).filter
      (fun t => idOf t = tip_id "x" "d")).length ≤ 1 :=
  ⟨(merge_update_insert_collapse.1 0 [("aaa", sampleTip "aaa" (61/100) "d")]
      (sampleTip "aaa" (1/2) "d") (sampleTip "aaa" (61/100) "d")
      (by with_unfolding_all decide)).1,
   merge_update_insert_collapse.2.1 0 [("bbb", sampleTip "bbb" (61/100) "d")]
      (sampleTip "aaa" (1/2) "d") (by with_unfolding_all decide),
   merge_update_insert_collapse.2.2.2 0 [sampleTip "aaa" (61/100) "d"]
      [sampleTip "aaa" (1/2) "d"] "x" "d" (by with_unfolding_all decide)⟩

set_option maxRecDepth 10000 in
/-- C2 counterexample: merging a candidate (confidence 0.5, empty
signature) into a store holding the same identity at confidence 0.61
stores confidence `round(0.677, 2) = 0.68`, not the un-rounded `0.677`
the claim states, and keeps the old signature rather than refreshing it
with the candidate's empty one. -/
theorem merge_confidence_rounding_cex :
    ((mergeTips 0 [{ sampleTip "aaa" (61/100) "d" with task_signature := ["x"] }]
        [sampleTip "aaa" (1/2) "d"]).map (fun t => t.confidence)) = [17/25] ∧
    (17/25 : ℚ) ≠ min 1 ((61/100) * (7/10) + (1/2) * (1/2)) ∧
    ((mergeTips 0 [{ sampleTip "aaa" (61/100) "d" with task_signature := ["x"] }]
        [sampleTip "aaa" (1/2) "d"]).map (fun t => t.task_signature)) = [["x"]] :=
  ⟨by with_unfolding_all decide, by with_unfolding_all decide, by with_unfolding_all decide⟩

theorem mem_ite_or {c : Prop} [Decidable c] {l1 l2 : List α} {t : α}
    (h : t ∈ (if c then l1 else l2)) : t ∈ l1 ∨ t ∈ l2 := by
  split at h
  · exact Or.inl h
  · exact Or.inr h

theorem select_core_sound (pb : Playbook) (task dom : String) :
    ∀ x ∈ select_core pb task dom,
      (x.2.2.domain = dom ∨ x.2.2.domain = "global") ∧
      pb.active_tips.get? x.2.1 = some x.2.2 := by
  intro x hx
  rw [select_core] at hx
  rcases mem_ite_or hx with h5 | h8
  · have hx2 := mem_sortDesc.mp (List.mem_of_mem_take h5)
    rcases List.mem_filterMap.mp hx2 with ⟨it, hit, hsome⟩
    split at hsome
    · cases hsome
      exact ⟨by assumption, List.mem_enum_iff_get?.mp hit⟩
    · cases hsome
  · have hx2 := mem_sortDesc.mp (List.mem_filter.mp (List.mem_of_mem_take h8)).1
    rcases List.mem_filterMap.mp hx2 with ⟨it, hit, hsome⟩
    split at hsome
    · cases hsome
      exact ⟨by assumption, List.mem_enum_iff_get?.mp hit⟩
    · cases hsome

/-- C5: for every task and every requesting domain, `_select_tips` only
ever returns tips whose domain is the requesting domain or the reserved
value "global" — in both the score-thresholded branch and the top-5
fallback branch — so a tip of domain "teamA" is never returned for a
"teamB" request. -/
theorem select_domain_isolation (now : Int) (pb : Playbook) (task dom : String) :
    ∀ t ∈ (select_tips now pb task dom).1, t.domain = dom ∨ t.domain = "global" := by
  intro t ht
  rw [select_tips] at ht
  split at ht
  · simp at ht
  · rcases List.mem_filterMap.mp ht with ⟨x, hxsel, hget⟩
    have hsound := select_core_sound pb task dom x hxsel
    rw [apply_decay, List.get?_eq_getElem?, List.getElem?_map, List.getElem?_map,
      List.getElem?_enum, ← List.get?_eq_getElem?, hsound.2] at hget
    simp only [Option.map_some', Option.some.injEq] at hget
    rw [← hget]
    show (if _ then ({ x.2.2 with last_used := some (some now) } : Tip) else x.2.2).domain = dom ∨
      (if _ then ({ x.2.2 with last_used := some (some now) } : Tip) else x.2.2).domain = "global"
    split
    · exact hsound.1
    · exact hsound.1

set_option maxRecDepth 10000 in
/-- C5 witness: a concrete "global" tip is returned for a "teamB" request
and the theorem certifies its domain eligibility. -/
theorem select_domain_isolation_witness :
    sampleTip "aaa" (9/10) "global" ∈
      (select_tips 0 { active_tips := [sampleTip "aaa" (9/10) "global"], preferences := [] }
        "" "teamB").1 ∧
    ((sampleTip "aaa" (9/10) "global").domain = "teamB" ∨
      (sampleTip "aaa" (9/10) "global").domain = "global") :=
  ⟨by with_unfolding_all decide,
   select_domain_isolation 0
     { active_tips := [sampleTip "aaa" (9/10) "global"], preferences := [] } "" "teamB" _
     (by with_unfolding_all decide)⟩

theorem pyJoin_length_ge_mem (sep : String) :
    ∀ {l : List String} {x : String}, x ∈ l → x.length ≤ (pyJoin sep l).length := by
  intro l
  induction l with
  | nil => intro x hx; simp at hx
  | cons y ys ih =>
    intro x hx
    cases ys with
    | nil =>
      rcases List.mem_singleton.mp hx with rfl
      exact le_refl _
    | cons z zs =>
      rcases List.mem_cons.mp hx with rfl | hx2
      · rw [pyJoin, String.length_append, String.length_append]
        omega
      · have := ih hx2
        rw [pyJoin, String.length_append, String.length_append]
        omega

/-- C9: the overlay text is the newline-join of, in order, the tip
section (header + one bullet per selected tip, present only when tips
were selected), the preference section (header + first 5 preferences,
present only when preferences exist) and the guardrail section (header +
every advisory note, present only when notes exist); the text is empty
exactly when all three sections are empty; and the returned identity
list is exactly the identities of the selected tips. -/
theorem overlay_sections_and_used_ids (now : Int) (g : Guardrails) (pb : Playbook)
    (task dom : String) :
    ((prompt_overlay now g pb task dom).1.1 =
      pyJoin "\n"
        ((if ¬ (select_tips now pb task dom).1.isEmpty then
            "ACE curated tips (recent, matched):" ::
              (select_tips now pb task dom).1.map (fun t => "- " ++ t.tip)
          else []) ++
         (if ¬ pb.preferences.isEmpty then
            "User preferences to respect:" :: (pb.preferences.take 5).map (fun p => "- " ++ p)
          else []) ++
         (if ¬ g.notes.isEmpty then
            "Guardrails:" :: g.notes.map (fun note => "- " ++ note)
          else []))) ∧
    ((prompt_overlay now g pb task dom).1.2 = (select_tips now pb task dom).1.map idOf) ∧
    ((prompt_overlay now g pb task dom).1.1 = "" ↔
      ((select_tips now pb task dom).1 = [] ∧ pb.preferences = [] ∧ g.notes = [])) := by
  refine ⟨rfl, rfl, ?_⟩
  have htext : (prompt_overlay now g pb task dom).1.1 =
      pyJoin "\n"
        ((if ¬ (select_tips now pb task dom).1.isEmpty then
            "ACE curated tips (recent, matched):" ::
              (select_tips now pb task dom).1.map (fun t => "- " ++ t.tip)
          else []) ++
         (if ¬ pb.preferences.isEmpty then
            "User preferences to respect:" :: (pb.preferences.take 5).map (fun p => "- " ++ p)
          else []) ++
         (if ¬ g.notes.isEmpty then
            "Guardrails:" :: g.notes.map (fun note => "- " ++ note)
          else [])) := rfl
  rw [htext]
  constructor
  · intro h
    refine ⟨?_, ?_, ?_⟩
    · by_contra hne
      have hcond : ¬ (select_tips now pb task dom).1.isEmpty = true := by
        simpa [List.isEmpty_iff] using hne
      have hmem : ("ACE curated tips (recent, matched):" : String) ∈
          ((if ¬ (select_tips now pb task dom).1.isEmpty then
              "ACE curated tips (recent, matched):" ::
                (select_tips now pb task dom).1.map (fun t => "- " ++ t.tip)
            else []) ++
           (if ¬ pb.preferences.isEmpty then
              "User preferences to respect:" :: (pb.preferences.take 5).map (fun p => "- " ++ p)
            else []) ++
           (if ¬ g.notes.isEmpty then
              "Guardrails:" :: g.notes.map (fun note => "- " ++ note)
            else [])) := by
        apply List.mem_append.mpr
        left
        apply List.mem_append.mpr
        left
        rw [if_pos hcond]
        exact List.mem_cons_self _ _
      have hlen := pyJoin_length_ge_mem "\n" hmem
      rw [h] at hlen
      exact absurd hlen (by decide)
    · by_contra hne
      have hcond : ¬ pb.preferences.isEmpty = true := by
        simpa [List.isEmpty_iff] using hne
      have hmem : ("User preferences to respect:" : String) ∈
          ((if ¬ (select_tips now pb task dom).1.isEmpty then
              "ACE curated tips (recent, matched):" ::
                (select_tips now pb task dom).1.map (fun t => "- " ++ t.tip)
            else []) ++
           (if ¬ pb.preferences.isEmpty then
              "User preferences to respect:" :: (pb.preferences.take 5).map (fun p => "- " ++ p)
            else []) ++
           (if ¬ g.notes.isEmpty then
              "Guardrails:" :: g.notes.map (fun note => "- " ++ note)
            else [])) := by
        apply List.mem_append.mpr
        left
        apply List.mem_append.mpr
        right
        rw [if_pos hcond]
        exact List.mem_cons_self _ _
      have hlen := pyJoin_length_ge_mem "\n" hmem
      rw [h] at hlen
      exact absurd hlen (by decide)
    · by_contra hne
      have hcond : ¬ g.notes.isEmpty = true := by
        simpa [List.isEmpty_iff] using hne
      have hmem : ("Guardrails:" : String) ∈
          ((if ¬ (select_tips now pb task dom).1.isEmpty then
              "ACE curated tips (recent, matched):" ::
                (select_tips now pb task dom).1.map (fun t => "- " ++ t.tip)
            else []) ++
           (if ¬ pb.preferences.isEmpty then
              "User preferences to respect:" :: (pb.preferences.take 5).map (fun p => "- " ++ p)
            else []) ++
           (if ¬ g.notes.isEmpty then
              "Guardrails:" :: g.notes.map (fun note => "- " ++ note)
            else [])) := by
        apply List.mem_append.mpr
        right
        rw [if_pos hcond]
        exact List.mem_cons_self _ _
      have hlen := pyJoin_length_ge_mem "\n" hmem
      rw [h] at hlen
      exact absurd hlen (by decide)
  · rintro ⟨ha, hb, hc⟩
    rw [ha, hb, hc]
    simp [pyJoin]

set_option maxRecDepth 10000 in
/-- C1 witness: the pipeline equation of the theorem instantiated at the
default guardrails and a concrete input. -/
theorem sanitize_text_pipeline_and_example_witness :
    sanitize_text default_guardrails "hello" =
      if ("hello" : String) = "" then ""
      else pyTake 2000 (deny_pass default_guardrails (redact_pass default_guardrails "hello")) :=
  sanitize_text_pipeline_and_example.1 default_guardrails "hello"

set_option maxRecDepth 10000 in
/-- C9 witness: the empty-overlay direction of the theorem instantiated
at an empty store with no guardrail notes. -/
theorem overlay_sections_and_used_ids_witness :
    (prompt_overlay 0 { notes := [], never_store_terms := [], redact_patterns := [] }
      { active_tips := [], preferences := [] } "t" "d").1.1 = "" :=
  (overlay_sections_and_used_ids 0
    { notes := [], never_store_terms := [], redact_patterns := [] }
    { active_tips := [], preferences := [] } "t" "d").2.2.mpr
    ⟨by with_unfolding_all decide, rfl, rfl⟩
